import Mathlib

/-!
Verification development for `smallsh.c`, a small interactive shell.
The definitions below are a shallow embedding of the parsing, dispatch,
job-registry, status-reporting and signal-handler code of the source file;
theorems about the spec's claims follow the definitions.
Strings are modelled as `List Char`; process ids as `Int`; wait statuses as
`Nat` with the glibc status macros spelled out arithmetically.
-/

namespace Smallsh

/-! ### Tokenization

`parseUserCmd` tokenizes the input line with `strtok_r(userline, " ", ...)`
(src/smallsh.c lines 326–341, 392): tokens are maximal runs of non-space
characters, runs of spaces are collapsed, no empty tokens are produced. -/

def tokenizeAux : List Char → List Char → List (List Char)
  | [], acc => if acc = [] then [] else [acc.reverse]
  | c :: rest, acc =>
    if c = ' ' then
      if acc = [] then tokenizeAux rest []
      else acc.reverse :: tokenizeAux rest []
    else tokenizeAux rest (c :: acc)

def tokenize (line : List Char) : List (List Char) :=
  tokenizeAux line []

/-! ### `$$` expansion

From `parseUserCmd` (lines 361–389): the loop scans the token for the first
index `i` with `piece[i] == '$'` and `piece[i+1] == '$'`; if found it writes
`piece[i] = '\0'` and produces `sprintf("%s%d", piece, parentPid)` —
that is, the prefix before the first `"$$"` followed by the decimal pid,
with everything from the `"$$"` onward (including any later occurrences)
discarded. A token with no `"$$"` is copied unchanged. -/

def pidRepr (pid : Nat) : List Char :=
  (Nat.repr pid).toList

def expandTok (pid : Nat) : List Char → List Char
  | [] => []
  | [c] => [c]
  | c :: c2 :: rest =>
    if c == '$' && c2 == '$' then pidRepr pid
    else c :: expandTok pid (c2 :: rest)

/-- `hasDD tok` holds when `tok` contains the two-character substring `"$$"`. -/
def hasDD : List Char → Bool
  | [] => false
  | [_] => false
  | c :: c2 :: rest => (c == '$' && c2 == '$') || hasDD (c2 :: rest)

/-- Modelled from the spec: "every occurrence of that substring is replaced by
the shell's own process ID, rendered in decimal, and nothing else in the token
changes" — the spec-side expansion, for comparison with `expandTok`. -/
def specExpandTok (pid : Nat) : List Char → List Char
  | [] => []
  | [c] => [c]
  | c :: c2 :: rest =>
    if c == '$' && c2 == '$' then pidRepr pid ++ specExpandTok pid rest
    else c :: specExpandTok pid (c2 :: rest)

/-! ### The parser

`parseUserCmd` (lines 324–399). The first token is copied into `args[0]`
verbatim (line 335) — no `$$` expansion is applied to it. Each later token is
dispatched: `"<"` consumes the next token as the input-redirect path (a later
`"<"` overwrites an earlier one), `">"` likewise for output, `"&"` sets the
background flag, and anything else is an ordinary argument, `$$`-expanded and
appended to the argument list. When `"<"` or `">"` is the last token,
`strtok_r` returns `NULL` and the code calls `strcpy(tempStr, NULL)` —
undefined behavior (a crash); `none` models that outcome. -/

structure ParsedCmd where
  args : List (List Char)
  input : Option (List Char)
  output : Option (List Char)
  bg : Bool
deriving DecidableEq, Repr

def parseLoop (pid : Nat) : List (List Char) → Option ParsedCmd
  | [] => some ⟨[], none, none, false⟩
  | tok :: rest =>
    if tok = ['<'] then
      match rest with
      | [] => none
      | path :: rest2 =>
        (parseLoop pid rest2).map fun r =>
          { r with input := some (r.input.getD path) }
    else if tok = ['>'] then
      match rest with
      | [] => none
      | path :: rest2 =>
        (parseLoop pid rest2).map fun r =>
          { r with output := some (r.output.getD path) }
    else if tok = ['&'] then
      (parseLoop pid rest).map fun r => { r with bg := true }
    else
      (parseLoop pid rest).map fun r =>
        { r with args := expandTok pid tok :: r.args }

def parseTokens (pid : Nat) : List (List Char) → Option ParsedCmd
  | [] => some ⟨[], none, none, false⟩
  | t :: rest =>
    (parseLoop pid rest).map fun r => { r with args := t :: r.args }

def parseUserCmd (pid : Nat) (line : List Char) : Option ParsedCmd :=
  parseTokens pid (tokenize line)

/-! ### The argument array

The caller's `cmdargs` array (`char *cmdargs[MAX_LINE_ARGS]`, lines 102–108)
is modelled as a `List (Option (List Char))`: a `some` entry is an allocated
string, `none` is a `NULL` pointer. The parser writes the parsed arguments at
indices `0 .. idx-1` and then sets `args[idx] = NULL` (lines 397–398);
entries beyond `idx` keep whatever they held before. -/

def writeArgsAt : List (Option (List Char)) → Nat → List (List Char) →
    List (Option (List Char))
  | arr, i, [] => arr.set i none
  | arr, i, a :: as => writeArgsAt (arr.set i (some a)) (i + 1) as

/-- The whole of `parseUserCmd` as seen by the caller: the updated `cmdargs`
array, the written `*argCount`, `*input`, `*output` and `*backgroundFlag`. -/
def parseUserCmdArray (pid : Nat) (line : List Char)
    (arr : List (Option (List Char))) :
    Option (List (Option (List Char)) × Nat × Option (List Char) ×
      Option (List Char) × Bool) :=
  (parseUserCmd pid line).map fun r =>
    (writeArgsAt arr 0 r.args, r.args.length, r.input, r.output, r.bg)

/-! ### Child-side setup

From `main` lines 191–207 and `redirectStdIO` lines 605–636. Note that the
child consults only the command's raw `background` flag: `foregroundOnly` is
not read anywhere on the child path. -/

inductive StreamSrc where
  | fromFile (path : List Char)
  | devNull
  | inherit
deriving DecidableEq, Repr

/-- `redirectStdIO(newStdin, newStdout, bgFlag)` (lines 605–636): stdin comes
from the input file when one is set, else from `/dev/null` when `bgFlag`
is set, else stays inherited; symmetrically for stdout. -/
def redirectStdIo (newStdin newStdout : Option (List Char)) (bgFlag : Bool) :
    StreamSrc × StreamSrc :=
  ( match newStdin with
    | some f => StreamSrc.fromFile f
    | none => if bgFlag then StreamSrc.devNull else StreamSrc.inherit,
    match newStdout with
    | some f => StreamSrc.fromFile f
    | none => if bgFlag then StreamSrc.devNull else StreamSrc.inherit )

structure ChildConfig where
  stdinSrc : StreamSrc
  stdoutSrc : StreamSrc
  sigintDefault : Bool
  sigtstpIgnored : Bool
deriving DecidableEq, Repr

/-- The child block of `main` (lines 191–207): apply `redirectStdIO` with the
raw background flag, restore SIGINT default exactly when `!background`,
unconditionally ignore SIGTSTP. -/
def childSetup (inputfile outputfile : Option (List Char))
    (background : Bool) : ChildConfig :=
  { stdinSrc := (redirectStdIo inputfile outputfile background).1
    stdoutSrc := (redirectStdIo inputfile outputfile background).2
    sigintDefault := !background
    sigtstpIgnored := true }

/-- `!background || foregroundOnly` — the condition of `main` line 214 under
which the parent waits, i.e. the command effectively runs in the foreground. -/
def effectiveForeground (background fgOnly : Bool) : Bool :=
  !background || fgOnly

/-- The spec's claim about the child of a background-flagged command in
foreground-only mode: stdin comes from the null device only when the flag is
set AND the mode is normal, and SIGINT default is restored exactly when the
command effectively runs in the foreground. -/
def claimC2At (inp out : Option (List Char)) (bg fgOnly : Bool) : Prop :=
  ((childSetup inp out bg).stdinSrc = StreamSrc.devNull →
    (bg = true ∧ fgOnly = false))
  ∧ (childSetup inp out bg).sigintDefault = effectiveForeground bg fgOnly

/-! ### Parent-side dispatch

From `main` lines 209–236: when `!background || foregroundOnly`, the parent
does `waitpid(forkPid, &childExitMethod, 0)` — a blocking wait on that
specific child — and adds nothing to the registry; otherwise it appends the
pid to `backgroundPids` and prints the start notice. -/

structure DispatchResult where
  waitedOn : Option Int
  registry : List Int
  startNotice : Option Int
deriving DecidableEq, Repr

def dispatchParent (forkPid : Int) (background fgOnly : Bool)
    (registry : List Int) : DispatchResult :=
  if !background || fgOnly then
    { waitedOn := some forkPid, registry := registry, startNotice := none }
  else
    { waitedOn := none, registry := registry ++ [forkPid],
      startNotice := some forkPid }

/-! ### Registry insertion bounds

`int backgroundPids[100]` (line 97) with insertion
`backgroundPids[backgroundPidCount] = forkPid; backgroundPidCount++;`
(lines 227–228) and no capacity check. The write is modelled as fallible:
`none` is the out-of-bounds store. -/

def backgroundPidsCapacity : Nat := 100

def registerBgPid (regs : List Int) (count : Nat) (pid : Int) :
    Option (List Int × Nat) :=
  if count < regs.length then some (regs.set count pid, count + 1) else none

/-! ### The reaper sweep

From `main` lines 122–143: `for (idx = 0; idx < backgroundPidCount; idx++)`
does `waitpid(pids[idx], &st, WNOHANG)`; on a non-zero return the entry is
reported and the tail is shifted left one slot, `backgroundPidCount--` — and
then the loop header still increments `idx`, so the entry that just slid into
slot `idx` is not examined during this sweep. `term p` says whether pid `p`
has terminated (and so whether its non-blocking `waitpid` returns non-zero).
The result is (remaining registry, reaped pids in report order). -/

def reapSweep (term : Int → Bool) : List Int → List Int × List Int
  | [] => ([], [])
  | [p] => if term p then ([], [p]) else ([p], [])
  | p :: q :: rest =>
    if term p then
      (q :: (reapSweep term rest).1, p :: (reapSweep term rest).2)
    else
      (p :: (reapSweep term (q :: rest)).1, (reapSweep term (q :: rest)).2)

/-- The spec's claim about one sweep: every terminated registered pid is
reaped (removed, and reported in registry order) and exactly the live ones
remain, in order. -/
def claimC3At (term : Int → Bool) (regs : List Int) : Prop :=
  (reapSweep term regs).1 = regs.filter (fun p => !term p)
  ∧ (reapSweep term regs).2 = regs.filter term

/-! ### Wait-status macros and `reportExitStatus`

Statuses are the nonnegative `int` values produced by `waitpid`. The glibc
macros, spelled out on `Nat`:
`WIFEXITED(s) = ((s & 0x7f) == 0)`; `WEXITSTATUS(s) = (s >> 8) & 0xff`;
`WTERMSIG(s) = s & 0x7f`; and
`WIFSIGNALED(s) = ((signed char)(((s & 0x7f) + 1) >> 1) > 0)`, which for
`t = s & 0x7f ∈ [0,127]` is positive exactly when `1 ≤ t ≤ 126` (at
`t = 127` the signed-char cast of `t + 1 = 128` is `-128`, at `t = 0` the
shift gives `0`). -/

def wIfExited (s : Nat) : Bool := s % 128 == 0

def wExitStatus (s : Nat) : Nat := (s / 256) % 256

def wTermSig (s : Nat) : Nat := s % 128

def wIfSignaled (s : Nat) : Bool := 1 ≤ s % 128 && s % 128 ≤ 126

/-- `reportExitStatus` (lines 453–470): prints the exit status on a normal
exit; on a signal termination prints the terminating signal — except that
signal `123` is explicitly excluded (`if (termSignal != 123)`) and prints
nothing. The result is the list of lines written. -/
def reportExitStatus (exitMethod : Nat) : List (List Char) :=
  if wIfExited exitMethod then
    [("Exit Status: " ++ Nat.repr (wExitStatus exitMethod)).toList]
  else if wIfSignaled exitMethod then
    if wTermSig exitMethod != 123 then
      [("Terminating Signal: " ++ Nat.repr (wTermSig exitMethod)).toList]
    else []
  else []

/-! ### The SIGTSTP handler

`catchSIGTSTP` (lines 557–592). Its body, in order: an *unconditional*
`waitpid(fgPidForSignal, &exitMeth, 0)` — the guard
`if (fgPidForSignal != -5)` is commented out in the source — then the flip of
`foregroundOnly` and a descriptor-level `write` of the notification (whose
byte count depends on `fgPidForSignal`). The model records the sequence of
actions the handler performs and the new value of `foregroundOnly`. -/

inductive HandlerAction where
  | blockingWaitpid (pid : Int)
  | setForegroundOnly (b : Bool)
  | writeBytes (msg : List Char) (n : Nat)
deriving DecidableEq, Repr

def enteringMsg : List Char :=
  "\nEntering foreground only mode. (& is now ignored)\n:".toList

def exitingMsg : List Char :=
  "\nExiting foreground only mode.\n:".toList

def catchSIGTSTP (foregroundOnly : Bool) (fgPidForSignal : Int) :
    List HandlerAction × Bool :=
  if !foregroundOnly then
    ([HandlerAction.blockingWaitpid fgPidForSignal,
      HandlerAction.setForegroundOnly true,
      HandlerAction.writeBytes enteringMsg
        (if fgPidForSignal != -5 then 51 else 52)], true)
  else
    ([HandlerAction.blockingWaitpid fgPidForSignal,
      HandlerAction.setForegroundOnly false,
      HandlerAction.writeBytes exitingMsg
        (if fgPidForSignal != -5 then 31 else 32)], false)

/-! ## Helper lemmas -/

theorem writeArgsAt_get_lt (as : List (List Char)) :
    ∀ (arr : List (Option (List Char))) (i j : Nat), j < i →
      (writeArgsAt arr i as).get? j = arr.get? j := by
  induction as with
  | nil =>
    intro arr i j hj
    simp only [writeArgsAt]
    exact List.get?_set_ne _ _ (Nat.ne_of_gt hj)
  | cons a as ih =>
    intro arr i j hj
    simp only [writeArgsAt]
    rw [ih _ (i + 1) j (Nat.lt_succ_of_lt hj)]
    exact List.get?_set_ne _ _ (Nat.ne_of_gt hj)

theorem writeArgsAt_get (as : List (List Char)) :
    ∀ (arr : List (Option (List Char))) (i : Nat), i + as.length < arr.length →
      ∀ j, j ≤ as.length →
        (writeArgsAt arr i as).get? (i + j) = some (as.get? j) := by
  induction as with
  | nil =>
    intro arr i hlen j hj
    have hj0 : j = 0 := Nat.le_zero.mp hj
    subst hj0
    simp only [writeArgsAt, Nat.add_zero]
    exact List.get?_set_eq_of_lt _ (by simpa using hlen)
  | cons a as ih =>
    intro arr i hlen j hj
    cases j with
    | zero =>
      simp only [writeArgsAt, Nat.add_zero]
      rw [writeArgsAt_get_lt as _ (i + 1) i (Nat.lt_succ_self i)]
      exact List.get?_set_eq_of_lt _ (by simp at hlen; omega)
    | succ j =>
      have : i + (j + 1) = (i + 1) + j := by omega
      rw [this]
      simp only [writeArgsAt]
      exact ih _ (i + 1) (by simp at hlen ⊢; omega) j (by simpa using hj)

theorem reapSweep_rem_sublist (term : Int → Bool) :
    ∀ (n : Nat) (regs : List Int), regs.length ≤ n →
      ((reapSweep term regs).1).Sublist regs := by
  intro n
  induction n with
  | zero =>
    intro regs h
    have : regs = [] := List.eq_nil_of_length_eq_zero (Nat.le_zero.mp h)
    subst this
    simp [reapSweep]
  | succ n ih =>
    intro regs h
    match regs with
    | [] => simp [reapSweep]
    | [p] =>
      by_cases hp : term p <;> simp [reapSweep, hp]
    | p :: q :: rest =>
      by_cases hp : term p
      · simp only [reapSweep, hp, if_true]
        exact ((ih rest (by simp at h; omega)).cons₂ q).cons p
      · simp only [reapSweep, hp, if_false]
        exact (ih (q :: rest) (by simp at h ⊢; omega)).cons₂ p

theorem reapSweep_reaped_term (term : Int → Bool) :
    ∀ (n : Nat) (regs : List Int), regs.length ≤ n →
      ∀ p, p ∈ (reapSweep term regs).2 → term p = true := by
  intro n
  induction n with
  | zero =>
    intro regs h
    have : regs = [] := List.eq_nil_of_length_eq_zero (Nat.le_zero.mp h)
    subst this
    simp [reapSweep]
  | succ n ih =>
    intro regs h
    match regs with
    | [] => simp [reapSweep]
    | [p] =>
      by_cases hp : term p <;> simp [reapSweep, hp]
    | p :: q :: rest =>
      by_cases hp : term p
      · simp only [reapSweep, hp, if_true]
        intro x hx
        rcases List.mem_cons.mp hx with hx | hx
        · subst hx; exact hp
        · exact ih rest (by simp at h; omega) x hx
      · simp only [reapSweep, hp, if_false]
        exact ih (q :: rest) (by simp at h ⊢; omega)

theorem expandTok_prefix_dd (pid : Nat) :
    ∀ (pre suf : List Char), hasDD pre = false → pre.getLast? ≠ some '$' →
      expandTok pid (pre ++ '$' :: '$' :: suf) = pre ++ pidRepr pid := by
  intro pre
  induction pre with
  | nil =>
    intro suf _ _
    simp [expandTok]
  | cons c pre ih =>
    intro suf h1 h2
    cases pre with
    | nil =>
      have hc : (c == '$') = false := by
        simp only [List.getLast?_singleton] at h2
        simpa using h2
      simp [expandTok, hc]
    | cons d pre =>
      have h1' : (c == '$' && d == '$') = false ∧ hasDD (d :: pre) = false := by
        simpa [hasDD, Bool.or_eq_false_iff] using h1
      have h2' : (d :: pre).getLast? ≠ some '$' := by
        rwa [List.getLast?_cons_cons] at h2
      have step := ih suf h1'.2 h2'
      calc expandTok pid ((c :: d :: pre) ++ '$' :: '$' :: suf)
          = c :: expandTok pid ((d :: pre) ++ '$' :: '$' :: suf) := by
            simp [expandTok, h1'.1]
        _ = c :: ((d :: pre) ++ pidRepr pid) := by rw [step]
        _ = (c :: d :: pre) ++ pidRepr pid := rfl

theorem expandTok_no_dd (pid : Nat) :
    ∀ (tok : List Char), hasDD tok = false → expandTok pid tok = tok := by
  intro tok
  induction tok with
  | nil => intro _; rfl
  | cons c tok ih =>
    intro h
    cases tok with
    | nil => rfl
    | cons d tok =>
      have h' : (c == '$' && d == '$') = false ∧ hasDD (d :: tok) = false := by
        simpa [hasDD, Bool.or_eq_false_iff] using h
      simp [expandTok, h'.1, ih h'.2]

/-! ## Claims -/

/-- C1 counterexample: on the line `echo a$$b` with shell pid 42 the parsed
second token is `a42` — everything after the first `"$$"` is discarded —
whereas the spec-side expansion of `a$$b` is `a42b`; and when the same token
is the first token (the program name), it is not expanded at all. -/
theorem parseUserCmd_dd_expansion_cex :
    parseUserCmd 42 ("echo a$$b".toList)
      = some ⟨["echo".toList, "a42".toList], none, none, false⟩
    ∧ specExpandTok 42 ("a$$b".toList) = "a42b".toList
    ∧ "a42".toList ≠ "a42b".toList
    ∧ parseUserCmd 42 ("a$$b".toList)
      = some ⟨["a$$b".toList], none, none, false⟩
    ∧ "a$$b".toList ≠ "a42b".toList := by decide

/-- C1 (amended): in ordinary argument tokens after the first, only the first
occurrence of `"$$"` takes effect: the token becomes the prefix before that
occurrence followed by the shell pid in decimal, with everything from the
`"$$"` onward discarded; a token with no `"$$"` is unchanged; and the first
token (the program name) is passed through verbatim, never expanded. -/
theorem expandTok_first_occurrence_amended :
    (∀ (pid : Nat) (pre suf : List Char), hasDD pre = false →
        pre.getLast? ≠ some '$' →
        expandTok pid (pre ++ '$' :: '$' :: suf) = pre ++ pidRepr pid)
    ∧ (∀ (pid : Nat) (tok : List Char), hasDD tok = false →
        expandTok pid tok = tok)
    ∧ (∀ (pid : Nat) (t : List Char) (rest : List (List Char)) (r : ParsedCmd),
        parseTokens pid (t :: rest) = some r → r.args.head? = some t) := by
  refine ⟨fun pid pre suf => expandTok_prefix_dd pid pre suf,
    fun pid tok => expandTok_no_dd pid tok, ?_⟩
  intro pid t rest r h
  have h' : ∃ r0, parseLoop pid rest = some r0 ∧
      { r0 with args := t :: r0.args } = r := by
    simpa [parseTokens, Option.map_eq_some'] using h
  obtain ⟨r0, -, hr⟩ := h'
  subst hr
  rfl

/-- C1 amended, witness: concrete instances of the three parts. -/
theorem expandTok_first_occurrence_amended_witness :
    expandTok 42 ("a".toList ++ '$' :: '$' :: "b$$c".toList)
      = "a".toList ++ pidRepr 42
    ∧ expandTok 42 ("plain".toList) = "plain".toList
    ∧ (ParsedCmd.mk ["x$$".toList] none none false).args.head?
      = some ("x$$".toList) :=
  ⟨expandTok_first_occurrence_amended.1 42 ("a".toList) ("b$$c".toList)
      (by decide) (by decide),
   expandTok_first_occurrence_amended.2.1 42 ("plain".toList) (by decide),
   expandTok_first_occurrence_amended.2.2 42 ("x$$".toList) []
      ⟨["x$$".toList], none, none, false⟩ (by decide)⟩

/-- C2 counterexample: for a command with the background flag set dispatched
in foreground-only mode (no redirects), the child's stdin does come from the
null device although the mode is not normal, and SIGINT default handling is
not restored although the command effectively runs in the foreground. -/
theorem childSetup_fgonly_cex : ¬ claimC2At none none true true := by
  unfold claimC2At
  decide

/-- C2 (amended): the child configuration depends only on the command's raw
background flag, never on the mode. A background-flagged command dispatched
in foreground-only mode effectively runs in the foreground, yet its child
still gets stdin from the null device when no input redirect is given, and
SIGINT stays ignored. -/
theorem childSetup_fgonly_amended (inp out : Option (List Char)) :
    effectiveForeground true true = true
    ∧ (childSetup inp out true).stdinSrc
      = inp.elim StreamSrc.devNull StreamSrc.fromFile
    ∧ (childSetup inp out true).sigintDefault = false := by
  refine ⟨rfl, ?_, rfl⟩
  cases inp <;> rfl

/-- C3 counterexample: with pids 1 and 2 registered in that order and both
terminated before the sweep, the sweep reaps only pid 1 and leaves pid 2 in
the registry, so not every terminated registered pid is removed. -/
theorem reapSweep_consecutive_cex : ¬ claimC3At (fun _ => true) [1, 2] := by
  unfold claimC3At
  decide

/-- C3 (amended): a sweep preserves the relative order of the surviving
entries and reports only terminated pids, but after removing a terminated
entry it skips the entry that slid into the freed slot: when two consecutive
registered processes have both terminated, the sweep reaps the first and
leaves the second for a later sweep. -/
theorem reapSweep_skip_amended :
    (∀ (term : Int → Bool) (regs : List Int),
        ((reapSweep term regs).1).Sublist regs)
    ∧ (∀ (term : Int → Bool) (regs : List Int) (p : Int),
        p ∈ (reapSweep term regs).2 → term p = true)
    ∧ (∀ (term : Int → Bool) (p q : Int) (rest : List Int), term p = true →
        reapSweep term (p :: q :: rest)
          = (q :: (reapSweep term rest).1, p :: (reapSweep term rest).2)) := by
  refine ⟨fun term regs => reapSweep_rem_sublist term regs.length regs le_rfl,
    fun term regs => reapSweep_reaped_term term regs.length regs le_rfl, ?_⟩
  intro term p q rest hp
  simp [reapSweep, hp]

/-- C3 amended, witness: concrete instances — the skip equation at registry
`[5, 6, 7]` with everything terminated, and the other two parts at
registry `[5, 6]`. -/
theorem reapSweep_skip_amended_witness :
    ((reapSweep (fun _ => true) [5, 6]).1).Sublist [5, 6]
    ∧ (fun _ => true : Int → Bool) 5 = true
    ∧ reapSweep (fun _ => true) [5, 6, 7]
      = (6 :: (reapSweep (fun _ => true) [7]).1,
         5 :: (reapSweep (fun _ => true) [7]).2) :=
  ⟨reapSweep_skip_amended.1 (fun _ => true) [5, 6],
   reapSweep_skip_amended.2.1 (fun _ => true) [5, 6] 5 (by decide),
   reapSweep_skip_amended.2.2 (fun _ => true) 5 6 [7] (by decide)⟩

/-- C4: on a line whose last token is `<` or `>` with no following path,
`strtok_r` yields `NULL` and the parser calls `strcpy` from the null
pointer — undefined behavior, modelled as `none`: the parser crashes rather
than reporting a parse failure. -/
theorem parseUserCmd_missing_redirect_target_crash :
    parseUserCmd 42 ("ls <".toList) = none
    ∧ parseUserCmd 42 ("cat foo >".toList) = none := by decide

/-- C5: the mode-toggle handler's very first action is an unconditional
blocking `waitpid(fgPidForSignal, &exitMeth, 0)` — in both mode directions,
and even when no foreground pid is recorded (`-5`) — contradicting the rule
that the handler only flips the flag and writes a notification. -/
theorem catchSIGTSTP_blocking_wait :
    (catchSIGTSTP false 1234).1.head?
      = some (HandlerAction.blockingWaitpid 1234)
    ∧ (catchSIGTSTP true 1234).1.head?
      = some (HandlerAction.blockingWaitpid 1234)
    ∧ (catchSIGTSTP false (-5)).1.head?
      = some (HandlerAction.blockingWaitpid (-5)) := by decide

/-- C6: dispatching any command while the mode is foreground-only makes the
parent perform a blocking wait on that specific child, and the job registry
is unchanged (no entry added, no start notice), whatever the background
flag. -/
theorem dispatchParent_fgonly_blocks (forkPid : Int) (background : Bool)
    (registry : List Int) :
    dispatchParent forkPid background true registry
      = { waitedOn := some forkPid, registry := registry,
          startNotice := none } := by
  simp [dispatchParent]

/-- C7: a wait status encoding termination by signal 123 (e.g. the status
value 123 itself: signaled, terminating signal 123) produces no output from
`reportExitStatus`, because of the explicit `termSignal != 123` test —
although statuses for other signals and normal exits are reported as the
claim (and the function's own doc comment) states. -/
theorem reportExitStatus_signal123_silent :
    wIfSignaled 123 = true
    ∧ wTermSig 123 = 123
    ∧ reportExitStatus 123 = []
    ∧ reportExitStatus 9 = [("Terminating Signal: 9").toList]
    ∧ reportExitStatus 0 = [("Exit Status: 0").toList] := by decide

/-- C8: two consecutive deliveries of the mode-toggle signal return the
foreground-only flag to its original value, for every starting value and
whatever foreground pid is recorded at each delivery. -/
theorem catchSIGTSTP_toggle_involution (fg : Bool) (p q : Int) :
    (catchSIGTSTP (catchSIGTSTP fg p).2 q).2 = fg := by
  cases fg <;> simp [catchSIGTSTP]

/-- C9: with the registry at its declared capacity of 100 slots, the
unchecked insertion `backgroundPids[backgroundPidCount] = forkPid` writes in
bounds exactly when fewer than 100 background pids are currently
registered. -/
theorem registerBgPid_inbounds_iff (regs : List Int) (count : Nat) (pid : Int)
    (h : regs.length = backgroundPidsCapacity) :
    (registerBgPid regs count pid).isSome ↔ count < backgroundPidsCapacity := by
  unfold registerBgPid
  rw [h]
  by_cases hc : count < backgroundPidsCapacity <;> simp [hc]

/-- C9 witness: inserting into a full-size registry holding 5 pids. -/
theorem registerBgPid_inbounds_iff_witness :
    (registerBgPid (List.replicate 100 0) 5 42).isSome
      ↔ 5 < backgroundPidsCapacity :=
  registerBgPid_inbounds_iff (List.replicate 100 0) 5 42
    (by simp [backgroundPidsCapacity])

/-- C10: whenever the parser returns, the caller's argument array holds the
parsed argument strings at indices `0 .. argCount-1` and `NULL` at index
`argCount` (provided `argCount` is within the array): entry `i` equals
`some` of the `i`-th parsed argument for `i < argCount` and `none` at
`argCount`; and a blank line parses to argument count 0, so entry 0 becomes
`NULL`. -/
theorem parseUserCmd_args_null_terminated :
    (∀ (pid : Nat) (line : List Char) (arr : List (Option (List Char)))
        (r : ParsedCmd), parseUserCmd pid line = some r →
        r.args.length < arr.length →
        parseUserCmdArray pid line arr
          = some (writeArgsAt arr 0 r.args, r.args.length, r.input, r.output,
              r.bg)
        ∧ (writeArgsAt arr 0 r.args).get? r.args.length = some none
        ∧ (∀ i, i ≤ r.args.length →
            (writeArgsAt arr 0 r.args).get? i = some (r.args.get? i)))
    ∧ (∀ pid : Nat, parseUserCmd pid [] = some ⟨[], none, none, false⟩) := by
  constructor
  · intro pid line arr r hr hlen
    have hall : ∀ i, i ≤ r.args.length →
        (writeArgsAt arr 0 r.args).get? i = some (r.args.get? i) := by
      intro i hi
      have := writeArgsAt_get r.args arr 0 (by simpa using hlen) i hi
      simpa using this
    refine ⟨?_, ?_, hall⟩
    · simp [parseUserCmdArray, hr]
    · have := hall r.args.length le_rfl
      rwa [List.get?_eq_none.mpr le_rfl] at this
  · intro pid
    rfl

/-- C10 witness: parsing `echo hi` into a four-slot array of stale strings
leaves `NULL` at index 2, the argument count. -/
theorem parseUserCmd_args_null_terminated_witness :
    (writeArgsAt [some ['z'], some ['z'], some ['z'], some ['z']] 0
        ["echo".toList, "hi".toList]).get? 2
      = some ((["echo".toList, "hi".toList] : List (List Char)).get? 2) :=
  (parseUserCmd_args_null_terminated.1 7 ("echo hi".toList)
      [some ['z'], some ['z'], some ['z'], some ['z']]
      ⟨["echo".toList, "hi".toList], none, none, false⟩
      (by decide) (by decide)).2.2 2 (by decide)

end Smallsh
